/-
A verification development for the zkVM-CLOB-Exchange repository.

The Rust sources are shallowly embedded in Lean 4:
* machine integers (`u64`, `u128`) become `Nat`, with saturation or
  checked-overflow modelled explicitly against `2^64`;
* `HashMap` content becomes association lists (`alGet`/`alSet` mirror
  `get`/`insert`); where a function iterates a `HashMap` in unspecified
  order, the iteration order is an explicit input of the embedding;
* the incremental `tiny_keccak::Sha3` hasher becomes a byte stream that is
  accumulated and hashed once at `finalize` (sponge absorption of
  consecutive `update` calls equals hashing the concatenation);
* SHA3-256 itself is implemented executably (Keccak-f[1600], rate 136,
  domain byte 0x06) so that digests evaluate inside the kernel;
* fallible or panicking code returns `Option`/`Except` (`none` models a
  Rust panic such as an out-of-bounds index or a failed `assert!`);
* `async` code is straight-line: every embedded function takes and
  returns its state explicitly, and clock reads (`SystemTime::now`)
  become an explicit `now : Nat` argument.

Functions of the repository that are declared and called in the sources
but whose defining file is absent from the snapshot (`State::get_frozen`,
`State::freeze`, `State::unfreeze`, `State::calculate_state_root`) are
modelled from the specification; each such definition carries a doc
comment starting "Modelled from the spec:".
-/
import Mathlib

set_option maxRecDepth 1000000

namespace Clob

/-- 64-bit rotate left on a `Nat` holding a value `< 2^64`. -/
def rotl64 (x n : Nat) : Nat :=
  ((x <<< n) &&& 0xFFFFFFFFFFFFFFFF) ||| (x >>> (64 - n))

/-- Keccak-f[1600] state: 25 lanes of 64 bits, lane `(x, y)` at field index `x + 5*y`. -/
structure KS where
  a0 : Nat
  a1 : Nat
  a2 : Nat
  a3 : Nat
  a4 : Nat
  a5 : Nat
  a6 : Nat
  a7 : Nat
  a8 : Nat
  a9 : Nat
  a10 : Nat
  a11 : Nat
  a12 : Nat
  a13 : Nat
  a14 : Nat
  a15 : Nat
  a16 : Nat
  a17 : Nat
  a18 : Nat
  a19 : Nat
  a20 : Nat
  a21 : Nat
  a22 : Nat
  a23 : Nat
  a24 : Nat
deriving Repr, DecidableEq

/-- One Keccak round: theta, rho, pi, chi, iota with round constant `rc`. -/
def kround (s : KS) (rc : Nat) : KS :=
  let c0 := s.a0 ^^^ s.a5 ^^^ s.a10 ^^^ s.a15 ^^^ s.a20
  let c1 := s.a1 ^^^ s.a6 ^^^ s.a11 ^^^ s.a16 ^^^ s.a21
  let c2 := s.a2 ^^^ s.a7 ^^^ s.a12 ^^^ s.a17 ^^^ s.a22
  let c3 := s.a3 ^^^ s.a8 ^^^ s.a13 ^^^ s.a18 ^^^ s.a23
  let c4 := s.a4 ^^^ s.a9 ^^^ s.a14 ^^^ s.a19 ^^^ s.a24
  let d0 := c4 ^^^ rotl64 c1 1
  let d1 := c0 ^^^ rotl64 c2 1
  let d2 := c1 ^^^ rotl64 c3 1
  let d3 := c2 ^^^ rotl64 c4 1
  let d4 := c3 ^^^ rotl64 c0 1
  let t0 := s.a0 ^^^ d0
  let t1 := s.a1 ^^^ d1
  let t2 := s.a2 ^^^ d2
  let t3 := s.a3 ^^^ d3
  let t4 := s.a4 ^^^ d4
  let t5 := s.a5 ^^^ d0
  let t6 := s.a6 ^^^ d1
  let t7 := s.a7 ^^^ d2
  let t8 := s.a8 ^^^ d3
  let t9 := s.a9 ^^^ d4
  let t10 := s.a10 ^^^ d0
  let t11 := s.a11 ^^^ d1
  let t12 := s.a12 ^^^ d2
  let t13 := s.a13 ^^^ d3
  let t14 := s.a14 ^^^ d4
  let t15 := s.a15 ^^^ d0
  let t16 := s.a16 ^^^ d1
  let t17 := s.a17 ^^^ d2
  let t18 := s.a18 ^^^ d3
  let t19 := s.a19 ^^^ d4
  let t20 := s.a20 ^^^ d0
  let t21 := s.a21 ^^^ d1
  let t22 := s.a22 ^^^ d2
  let t23 := s.a23 ^^^ d3
  let t24 := s.a24 ^^^ d4
  let b0 := t0
  let b1 := rotl64 t6 44
  let b2 := rotl64 t12 43
  let b3 := rotl64 t18 21
  let b4 := rotl64 t24 14
  let b5 := rotl64 t3 28
  let b6 := rotl64 t9 20
  let b7 := rotl64 t10 3
  let b8 := rotl64 t16 45
  let b9 := rotl64 t22 61
  let b10 := rotl64 t1 1
  let b11 := rotl64 t7 6
  let b12 := rotl64 t13 25
  let b13 := rotl64 t19 8
  let b14 := rotl64 t20 18
  let b15 := rotl64 t4 27
  let b16 := rotl64 t5 36
  let b17 := rotl64 t11 10
  let b18 := rotl64 t17 15
  let b19 := rotl64 t23 56
  let b20 := rotl64 t2 62
  let b21 := rotl64 t8 55
  let b22 := rotl64 t14 39
  let b23 := rotl64 t15 41
  let b24 := rotl64 t21 2
  let u0 := b0 ^^^ ((b1 ^^^ 0xFFFFFFFFFFFFFFFF) &&& b2)
  let u1 := b1 ^^^ ((b2 ^^^ 0xFFFFFFFFFFFFFFFF) &&& b3)
  let u2 := b2 ^^^ ((b3 ^^^ 0xFFFFFFFFFFFFFFFF) &&& b4)
  let u3 := b3 ^^^ ((b4 ^^^ 0xFFFFFFFFFFFFFFFF) &&& b0)
  let u4 := b4 ^^^ ((b0 ^^^ 0xFFFFFFFFFFFFFFFF) &&& b1)
  let u5 := b5 ^^^ ((b6 ^^^ 0xFFFFFFFFFFFFFFFF) &&& b7)
  let u6 := b6 ^^^ ((b7 ^^^ 0xFFFFFFFFFFFFFFFF) &&& b8)
  let u7 := b7 ^^^ ((b8 ^^^ 0xFFFFFFFFFFFFFFFF) &&& b9)
  let u8 := b8 ^^^ ((b9 ^^^ 0xFFFFFFFFFFFFFFFF) &&& b5)
  let u9 := b9 ^^^ ((b5 ^^^ 0xFFFFFFFFFFFFFFFF) &&& b6)
  let u10 := b10 ^^^ ((b11 ^^^ 0xFFFFFFFFFFFFFFFF) &&& b12)
  let u11 := b11 ^^^ ((b12 ^^^ 0xFFFFFFFFFFFFFFFF) &&& b13)
  let u12 := b12 ^^^ ((b13 ^^^ 0xFFFFFFFFFFFFFFFF) &&& b14)
  let u13 := b13 ^^^ ((b14 ^^^ 0xFFFFFFFFFFFFFFFF) &&& b10)
  let u14 := b14 ^^^ ((b10 ^^^ 0xFFFFFFFFFFFFFFFF) &&& b11)
  let u15 := b15 ^^^ ((b16 ^^^ 0xFFFFFFFFFFFFFFFF) &&& b17)
  let u16 := b16 ^^^ ((b17 ^^^ 0xFFFFFFFFFFFFFFFF) &&& b18)
  let u17 := b17 ^^^ ((b18 ^^^ 0xFFFFFFFFFFFFFFFF) &&& b19)
  let u18 := b18 ^^^ ((b19 ^^^ 0xFFFFFFFFFFFFFFFF) &&& b15)
  let u19 := b19 ^^^ ((b15 ^^^ 0xFFFFFFFFFFFFFFFF) &&& b16)
  let u20 := b20 ^^^ ((b21 ^^^ 0xFFFFFFFFFFFFFFFF) &&& b22)
  let u21 := b21 ^^^ ((b22 ^^^ 0xFFFFFFFFFFFFFFFF) &&& b23)
  let u22 := b22 ^^^ ((b23 ^^^ 0xFFFFFFFFFFFFFFFF) &&& b24)
  let u23 := b23 ^^^ ((b24 ^^^ 0xFFFFFFFFFFFFFFFF) &&& b20)
  let u24 := b24 ^^^ ((b20 ^^^ 0xFFFFFFFFFFFFFFFF) &&& b21)
  { a0 := u0 ^^^ rc,
    a1 := u1, a2 := u2, a3 := u3, a4 := u4, a5 := u5, a6 := u6, a7 := u7, a8 := u8, a9 := u9, a10 := u10, a11 := u11, a12 := u12,
    a13 := u13, a14 := u14, a15 := u15, a16 := u16, a17 := u17, a18 := u18, a19 := u19, a20 := u20, a21 := u21, a22 := u22, a23 := u23, a24 := u24 }

/-- The 24 Keccak round constants. -/
def keccakRC : List Nat :=
  [0x0000000000000001, 0x0000000000008082, 0x800000000000808a, 0x8000000080008000, 0x000000000000808b, 0x0000000080000001,
   0x8000000080008081, 0x8000000000008009, 0x000000000000008a, 0x0000000000000088, 0x0000000080008009, 0x000000008000000a,
   0x000000008000808b, 0x800000000000008b, 0x8000000000008089, 0x8000000000008003, 0x8000000000008002, 0x8000000000000080,
   0x000000000000800a, 0x800000008000000a, 0x8000000080008081, 0x8000000000008080, 0x0000000080000001, 0x8000000080008008]

/-- The full Keccak-f[1600] permutation (24 rounds). -/
def keccakF (s : KS) : KS := keccakRC.foldl kround s

/-- Interpret a list of bytes as a little-endian natural number. -/
def leVal (bs : List Nat) : Nat := bs.foldr (fun b acc => b + 256 * acc) 0

/-- Lane `k` (8 bytes, little-endian) of a 136-byte rate block. -/
def laneAt (blk : List Nat) (k : Nat) : Nat := leVal ((blk.drop (8 * k)).take 8)

/-- Absorb one 136-byte block into the sponge state and permute. -/
def absorbBlock (s : KS) (blk : List Nat) : KS :=
  keccakF {
    a0 := s.a0 ^^^ laneAt blk 0,
    a1 := s.a1 ^^^ laneAt blk 1,
    a2 := s.a2 ^^^ laneAt blk 2,
    a3 := s.a3 ^^^ laneAt blk 3,
    a4 := s.a4 ^^^ laneAt blk 4,
    a5 := s.a5 ^^^ laneAt blk 5,
    a6 := s.a6 ^^^ laneAt blk 6,
    a7 := s.a7 ^^^ laneAt blk 7,
    a8 := s.a8 ^^^ laneAt blk 8,
    a9 := s.a9 ^^^ laneAt blk 9,
    a10 := s.a10 ^^^ laneAt blk 10,
    a11 := s.a11 ^^^ laneAt blk 11,
    a12 := s.a12 ^^^ laneAt blk 12,
    a13 := s.a13 ^^^ laneAt blk 13,
    a14 := s.a14 ^^^ laneAt blk 14,
    a15 := s.a15 ^^^ laneAt blk 15,
    a16 := s.a16 ^^^ laneAt blk 16,
    a17 := s.a17, a18 := s.a18, a19 := s.a19, a20 := s.a20, a21 := s.a21, a22 := s.a22, a23 := s.a23, a24 := s.a24 }

/-- SHA3 padding: append 0x06, zero fill, set the top bit of the final rate byte. -/
def sha3Pad (msg : List Nat) : List Nat :=
  let padLen := 136 - msg.length % 136
  if padLen == 1 then msg ++ [0x86]
  else msg ++ 0x06 :: List.replicate (padLen - 2) 0 ++ [0x80]

/-- Eight little-endian bytes of a 64-bit lane. -/
def le8 (x : Nat) : List Nat :=
  [x &&& 255, (x >>> 8) &&& 255, (x >>> 16) &&& 255, (x >>> 24) &&& 255,
   (x >>> 32) &&& 255, (x >>> 40) &&& 255, (x >>> 48) &&& 255, (x >>> 56) &&& 255]

/-- The all-zero Keccak state. -/
def ksZero : KS :=
  { a0 := 0, a1 := 0, a2 := 0, a3 := 0, a4 := 0, a5 := 0, a6 := 0, a7 := 0, a8 := 0, a9 := 0, a10 := 0, a11 := 0, a12 := 0,
    a13 := 0, a14 := 0, a15 := 0, a16 := 0, a17 := 0, a18 := 0, a19 := 0, a20 := 0, a21 := 0, a22 := 0, a23 := 0, a24 := 0 }

/-- SHA3-256 of a byte list (each entry `< 256`); returns the 32 digest bytes. -/
def sha3_256 (msg : List Nat) : List Nat :=
  let padded := sha3Pad msg
  let nb := padded.length / 136
  let s := (List.range nb).foldl
    (fun st bi => absorbBlock st ((padded.drop (136 * bi)).take 136)) ksZero
  le8 s.a0 ++ le8 s.a1 ++ le8 s.a2 ++ le8 s.a3

/-- UTF-8 encoding of one character (Rust `str::as_bytes` is UTF-8). -/
def charUTF8 (c : Char) : List Nat :=
  let n := c.toNat
  if n < 0x80 then [n]
  else if n < 0x800 then
    [0xC0 ||| (n >>> 6), 0x80 ||| (n &&& 0x3F)]
  else if n < 0x10000 then
    [0xE0 ||| (n >>> 12), 0x80 ||| ((n >>> 6) &&& 0x3F), 0x80 ||| (n &&& 0x3F)]
  else
    [0xF0 ||| (n >>> 18), 0x80 ||| ((n >>> 12) &&& 0x3F),
     0x80 ||| ((n >>> 6) &&& 0x3F), 0x80 ||| (n &&& 0x3F)]

/-- The UTF-8 bytes of a string, as `str::as_bytes` yields them. -/
def strBytes (s : String) : List Nat := (s.data.map charUTF8).flatten

/-- Byte-lexicographic order on byte lists: the order `Ord` on Rust strings uses. -/
def bytesLe : List Nat → List Nat → Bool
  | [], _ => true
  | _ :: _, [] => false
  | a :: as, b :: bs => if a < b then true else if b < a then false else bytesLe as bs

/-- Rust `String` order (byte-lexicographic on the UTF-8 bytes). -/
def strLe (a b : String) : Bool := bytesLe (strBytes a) (strBytes b)

/-- Insert `a` into a sorted list after every element `b` with `le b a`:
the insertion step of a stable sort. -/
def insertSorted (le : α → α → Bool) (a : α) : List α → List α
  | [] => [a]
  | b :: bs => if le b a then b :: insertSorted le a bs else a :: b :: bs

/-- Stable sort by a total comparator: the model of Rust's (stable)
`slice::sort_by_key`.  A stable sort's output is determined by the
comparator, so any faithful stable sort gives the source's list. -/
def sort_by_key (le : α → α → Bool) (l : List α) : List α :=
  l.foldl (fun acc a => insertSorted le a acc) []

/-- `HashMap::get` on an association list (first binding of the key wins). -/
def alGet (k : String) (m : List (String × α)) : Option α :=
  (m.find? (fun p => p.1 == k)).map Prod.snd

/-- `HashMap::insert` on an association list: replace the binding or append one. -/
def alSet (k : String) (v : α) : List (String × α) → List (String × α)
  | [] => [(k, v)]
  | (k1, v1) :: rest => if k1 == k then (k, v) :: rest else (k1, v1) :: alSet k v rest

/-- `HashMap::entry(k).or_insert(d)` followed by an update of the entry. -/
def alUpdate (k : String) (d : α) (f : α → α) (m : List (String × α)) :
    List (String × α) :=
  alSet k (f ((alGet k m).getD d)) m

/-- `u64::MAX`. -/
def u64max : Nat := 2 ^ 64 - 1

/-- `u64::checked_mul`. -/
def checkedMul (a b : Nat) : Option Nat :=
  if a * b ≤ u64max then some (a * b) else none

/-- `u64::checked_add`. -/
def checkedAdd (a b : Nat) : Option Nat :=
  if a + b ≤ u64max then some (a + b) else none

/-- Rust `str::split('_')` (always at least one piece; empty pieces kept). -/
def splitChar (c : Char) : List Char → List (List Char)
  | [] => [[]]
  | d :: ds =>
    let r := splitChar c ds
    if d == c then [] :: r
    else
      match r with
      | [] => [[d]]
      | g :: gs => (d :: g) :: gs

/-- `common/src/order.rs::get_pair_tokens`: split `pair_id` on `'_'` and take
pieces 0 and 1.  The source indexes `tokens[1]` unconditionally, so a pair id
with no separator panics (out-of-bounds index): modelled as `none`.  Extra
pieces after the second are silently ignored, as in the source. -/
def get_pair_tokens (pair_id : String) : Option (String × String) :=
  match (splitChar '_' pair_id.data).map String.mk with
  | t0 :: t1 :: _ => some (t0, t1)
  | _ => none

/-- `common/src/order.rs::OrderStatus`. -/
inductive OrderStatus where
  | Pending
  | PartiallyFilled
  | Filled
  | Cancelled
deriving DecidableEq

/-- `common/src/order.rs::Order` (timestamps are seconds since epoch). -/
structure Order where
  id : String
  user_id : String
  pair_id : String
  token_a : String
  token_b : String
  amount : Nat
  filled_amount : Nat
  price : Nat
  side : Bool
  status : OrderStatus
  created_at : Nat
  updated_at : Nat
deriving DecidableEq

/-- `Order::new` with the clock explicit; `none` models the panic inside
`get_pair_tokens` for a malformed pair id. -/
def Order.new (id user_id pair_id : String) (amount price : Nat) (side : Bool)
    (now : Nat) : Option Order :=
  (get_pair_tokens pair_id).map (fun tk =>
    { id := id, user_id := user_id, pair_id := pair_id,
      token_a := tk.1, token_b := tk.2,
      amount := amount, filled_amount := 0, price := price, side := side,
      status := OrderStatus.Pending, created_at := now, updated_at := now })

/-- `Order::remaining_amount` (`u64` subtraction; `filled_amount ≤ amount`
holds on every order the engine builds, and `Nat` subtraction truncates
exactly where the release-mode `u64` would wrap). -/
def Order.remaining_amount (o : Order) : Nat := o.amount - o.filled_amount

/-- `Order::is_filled`. -/
def Order.is_filled (o : Order) : Bool := o.amount ≤ o.filled_amount

/-- `Order::fill`. -/
def Order.fill (o : Order) (amount : Nat) : Order :=
  let f := o.filled_amount + amount
  { o with
    filled_amount := f,
    status :=
      if o.amount ≤ f then OrderStatus.Filled
      else if 0 < f then OrderStatus.PartiallyFilled
      else o.status }

/-- `common/src/traces.rs::MatchedTrace`. -/
structure MatchedTrace where
  buy_order : Order
  sell_order : Order
  matched_amount : Nat
deriving DecidableEq


/-- Lowercase hexadecimal digit. -/
def hexDigit (n : Nat) : Char :=
  if n < 10 then Char.ofNat (48 + n) else Char.ofNat (87 + n)

/-- One character as `serde_json` emits it inside a string literal. -/
def jsonEscapeChar (c : Char) : String :=
  if c = '"' then "\\\""
  else if c = '\\' then "\\\\"
  else if c.toNat == 0x08 then "\\b"
  else if c.toNat == 0x09 then "\\t"
  else if c.toNat == 0x0A then "\\n"
  else if c.toNat == 0x0C then "\\f"
  else if c.toNat == 0x0D then "\\r"
  else if c.toNat < 0x20 then
    String.mk ['\\', 'u', '0', '0', hexDigit (c.toNat >>> 4), hexDigit (c.toNat &&& 0xF)]
  else String.singleton c

/-- A JSON string literal as `serde_json` emits it. -/
def jsonString (s : String) : String :=
  "\"" ++ String.join (s.data.map jsonEscapeChar) ++ "\""

/-- A JSON boolean as `serde_json` emits it. -/
def jsonBool (b : Bool) : String := if b then "true" else "false"

/-- The serde name of an `OrderStatus` unit variant. -/
def statusName : OrderStatus → String
  | OrderStatus.Pending => "Pending"
  | OrderStatus.PartiallyFilled => "PartiallyFilled"
  | OrderStatus.Filled => "Filled"
  | OrderStatus.Cancelled => "Cancelled"

/-- `serde_json::to_vec(&order)` as a string: fields in declaration order,
no whitespace, `u64` as decimal, `bool` as `true`/`false`, the status enum
as its variant name. -/
def orderJson (o : Order) : String :=
  "\x7b\"id\":" ++ jsonString o.id ++
  ",\"user_id\":" ++ jsonString o.user_id ++
  ",\"pair_id\":" ++ jsonString o.pair_id ++
  ",\"token_a\":" ++ jsonString o.token_a ++
  ",\"token_b\":" ++ jsonString o.token_b ++
  ",\"amount\":" ++ Nat.repr o.amount ++
  ",\"filled_amount\":" ++ Nat.repr o.filled_amount ++
  ",\"price\":" ++ Nat.repr o.price ++
  ",\"side\":" ++ jsonBool o.side ++
  ",\"status\":" ++ jsonString (statusName o.status) ++
  ",\"created_at\":" ++ Nat.repr o.created_at ++
  ",\"updated_at\":" ++ Nat.repr o.updated_at ++ "\x7d"

/-- `serde_json::to_vec(&trace)` as a string. -/
def traceJson (tr : MatchedTrace) : String :=
  "\x7b\"buy_order\":" ++ orderJson tr.buy_order ++
  ",\"sell_order\":" ++ orderJson tr.sell_order ++
  ",\"matched_amount\":" ++ Nat.repr tr.matched_amount ++ "\x7d"

/-- The serialized bytes of one trace. -/
def traceJsonBytes (tr : MatchedTrace) : List Nat := strBytes (traceJson tr)

/-- `execution/src/block/block_builder.rs::BlockBuilder::calculate_txns_root`:
absorb each trace's JSON bytes in order, then finalize. -/
def calculate_txns_root (txns : List MatchedTrace) : List Nat :=
  sha3_256 (txns.foldl (fun acc tr => acc ++ traceJsonBytes tr) [])

/-- `prover/program/src/main.rs::calculate_txns_root`: the re-execution
program's own copy of the txns-root computation. -/
def prover_txns_root (txns : List MatchedTrace) : List Nat :=
  sha3_256 (txns.foldl (fun acc tr => acc ++ traceJsonBytes tr) [])

/-- `prover/program/src/main.rs::calculate_da_hash`: absorb every per-block
txns root in order, then finalize. -/
def calculate_da_hash (txns_roots : List (List Nat)) : List Nat :=
  sha3_256 (txns_roots.foldl (fun acc r => acc ++ r) [])

/-- `prover/program/src/main.rs::calculate_pi_hash`. -/
def calculate_pi_hash (prev post da : List Nat) : List Nat :=
  sha3_256 (prev ++ post ++ da)

/-- One (user, token) cell of the balance state.  The snapshot's
`Account.balances` stores the free balance; the specification (section 3)
gives every (user, token) the pair (free, frozen), with the frozen side
reached through the `freeze`/`unfreeze`/`get_frozen` methods whose defining
file is absent from the snapshot.  The embedding carries the pair; every
operation of `common/src/state.rs` touches only `free`. -/
structure Bal where
  free : Nat
  frozen : Nat
deriving DecidableEq

/-- `common/src/state.rs::State` (the durable `sled` handle of `StateDB` is
out of scope; only the in-memory state is embedded). -/
structure State where
  user_balances : List (String × List (String × Bal))
deriving DecidableEq

/-- The (free, frozen) cell for a user and token, defaulting to (0, 0). -/
def State.getBal (s : State) (user_id token_id : String) : Bal :=
  (((alGet user_id s.user_balances).bind (alGet token_id)).getD { free := 0, frozen := 0 })

/-- `State::get_user_balance` (missing user or token reads as 0). -/
def State.get_user_balance (s : State) (user_id token_id : String) : Nat :=
  (s.getBal user_id token_id).free

/-- `State::set_user_balance`: `entry(user).or_insert(Account::new())`
then `insert(token, balance)`; only the free component is the source's
`u64`, the frozen side rides along unchanged. -/
def State.set_user_balance (s : State) (user_id token_id : String) (balance : Nat) :
    State :=
  { user_balances :=
      alUpdate user_id []
        (fun acct =>
          alUpdate token_id { free := 0, frozen := 0 }
            (fun bal => { bal with free := balance }) acct)
        s.user_balances }

/-- `State::add_user_balance` (`u64::saturating_add`). -/
def State.add_user_balance (s : State) (user_id token_id : String) (amount : Nat) :
    State :=
  s.set_user_balance user_id token_id
    (min (s.get_user_balance user_id token_id + amount) u64max)

/-- `State::sub_user_balance`: `true` and the reduced balance when the free
balance covers `amount`, else `false` with the state unchanged. -/
def State.sub_user_balance (s : State) (user_id token_id : String) (amount : Nat) :
    Bool × State :=
  let current := s.get_user_balance user_id token_id
  if amount ≤ current then (true, s.set_user_balance user_id token_id (current - amount))
  else (false, s)

/-- Modelled from the spec: `State::get_frozen` (called by
`execution/src/exchange/mempool.rs`; its definition is absent from the
snapshot).  Spec section 4.1: "get_frozen(user, token) → frozen". -/
def State.get_frozen (s : State) (user_id token_id : String) : Nat :=
  (s.getBal user_id token_id).frozen

/-- Write both components of a (user, token) cell. -/
def State.setBal (s : State) (user_id token_id : String) (b : Bal) : State :=
  { user_balances :=
      alUpdate user_id []
        (fun acct => alUpdate token_id { free := 0, frozen := 0 } (fun _ => b) acct)
        s.user_balances }

/-- Modelled from the spec: `State::freeze` (called by the mempool; its
definition is absent from the snapshot).  Spec section 4.1: "freeze(user,
token, amount) moves amount from free to frozen (requires free ≥ amount,
else fails)". -/
def State.freeze (s : State) (user_id token_id : String) (amount : Nat) :
    Bool × State :=
  let b := s.getBal user_id token_id
  if amount ≤ b.free then
    (true, s.setBal user_id token_id { free := b.free - amount, frozen := b.frozen + amount })
  else (false, s)

/-- Modelled from the spec: `State::unfreeze` (called by the mempool and the
block builder; its definition is absent from the snapshot).  Spec section
4.1: "unfreeze(user, token, amount) moves amount from frozen to free
(requires frozen ≥ amount, else clamps to 0 and signals)"; the clamping
branch moves the frozen balance that is available, which keeps free+frozen
conserved as section 8 requires. -/
def State.unfreeze (s : State) (user_id token_id : String) (amount : Nat) :
    Bool × State :=
  let b := s.getBal user_id token_id
  let moved := min amount b.frozen
  (amount ≤ b.frozen,
   s.setBal user_id token_id { free := b.free + moved, frozen := b.frozen - moved })

/-- `common/src/state.rs::calculate_user_hash` (identical in
`exchange/src/state.rs`): absorb the user id's bytes, then for each token in
ascending `String` order its bytes and the balance's 8 little-endian bytes;
finalize.  The balances map is passed as the list the source's map iteration
yields; the function sorts it itself. -/
def calculate_user_hash (user_id : String) (balances : List (String × Nat)) :
    List Nat :=
  let sorted := sort_by_key (fun a b => strLe a.1 b.1) balances
  sha3_256 (sorted.foldl (fun acc p => acc ++ strBytes p.1 ++ le8 p.2) (strBytes user_id))

/-- One level of the bottom-up Merkle build: hash pairs left to right,
duplicating a trailing odd node (`right = left.clone()`). -/
def merklePairUp : List (List Nat) → List (List Nat)
  | [] => []
  | [x] => [sha3_256 (x ++ x)]
  | x :: y :: rest => sha3_256 (x ++ y) :: merklePairUp rest

/-- The `while nodes.len() > 1` loop; the fuel starts at the leaf count,
which bounds the number of levels. -/
def merkleLevels : Nat → List (List Nat) → List (List Nat)
  | 0, ns => ns
  | fuel + 1, ns => if ns.length ≤ 1 then ns else merkleLevels fuel (merklePairUp ns)

/-- "If odd number of users, duplicate the last hash to make it even". -/
def dupLastIfOdd (l : List (List Nat)) : List (List Nat) :=
  if l.length % 2 == 1 then l ++ [l.getLast?.getD []] else l

/-- The Merkle root of a non-empty leaf list, as `gen_state_root` builds it. -/
def merkleRoot (leaves : List (List Nat)) : Option (List Nat) :=
  (merkleLevels leaves.length (dupLastIfOdd leaves)).head?

/-- `common/src/state.rs::State::gen_state_root` (identical in
`exchange/src/state.rs`).  The source iterates `user_balances: HashMap` in
whatever order the map yields; that iteration order is this embedding's
explicit input, so the function is a map from one enumeration of the state
to a root. -/
def gen_state_root (user_balances : List (String × List (String × Nat))) :
    Option (List Nat) :=
  if user_balances.isEmpty then none
  else merkleRoot (user_balances.map (fun p => calculate_user_hash p.1 p.2))

/-- Modelled from the spec: the leaf byte stream of
`State::calculate_state_root` (spec section 4.1 step 1): the user id's
bytes, then per token in ascending token-id-byte order the token's bytes,
free as 8 little-endian bytes and frozen as 8 little-endian bytes. -/
def userLeafBytes (user_id : String) (acct : List (String × Bal)) : List Nat :=
  strBytes user_id ++
    ((sort_by_key (fun a b => strLe a.1 b.1) acct).map
      (fun p => strBytes p.1 ++ le8 p.2.free ++ le8 p.2.frozen)).flatten

/-- Modelled from the spec: `State::calculate_state_root` (called by the
block builder and the re-execution program; its definition is absent from
the snapshot).  Spec section 4.1: none on an empty user set; leaves as
`userLeafBytes`, collected in canonical order (sorted by user-id bytes);
binary Merkle tree with odd-node duplication; SHA3-256 throughout. -/
def State.calculate_state_root (s : State) : Option (List Nat) :=
  if s.user_balances.isEmpty then none
  else
    merkleRoot
      ((sort_by_key (fun a b => strLe a.1 b.1) s.user_balances).map
        (fun p => sha3_256 (userLeafBytes p.1 p.2)))

/-- `common/src/block.rs::Block` (`u128` block number as `Nat`; the two
roots are 32-byte digests). -/
structure Block where
  block_num : Nat
  txns : List MatchedTrace
  txns_root : Option (List Nat)
  state_root : Option (List Nat)
deriving DecidableEq


/-- `exchange/src/matching.rs::Ord for BuyOrder`: higher price first, then
earlier `created_at` first. -/
def buyCmp (a b : Order) : Ordering :=
  match compare a.price b.price with
  | Ordering.eq => compare b.created_at a.created_at
  | o => o

/-- `exchange/src/matching.rs::Ord for SellOrder`: lower price first, then
earlier `created_at` first. -/
def sellCmp (a b : Order) : Ordering :=
  match compare b.price a.price with
  | Ordering.eq => compare b.created_at a.created_at
  | o => o

/-- `a` is strictly greater (higher priority in the max-heap) than `b`. -/
def buyGT (a b : Order) : Bool := buyCmp a b == Ordering.gt

/-- `a` is strictly greater (higher priority in the sell heap) than `b`. -/
def sellGT (a b : Order) : Bool := sellCmp a b == Ordering.gt

/-- `BinaryHeap::pop`: a maximal element and the rest.  The heap's order
among entries that compare equal is unspecified; the embedding takes the
leftmost maximal entry. -/
def popMax (gt : α → α → Bool) : List α → Option (α × List α)
  | [] => none
  | o :: os =>
    match popMax gt os with
    | none => some (o, [])
    | some (m, rest) => if gt m o then some (m, o :: rest) else some (o, os)

/-- `exchange/src/matching.rs::OrderBook`: the two priority queues as
multisets (lists) and the `order_id → Order` lookup map. -/
structure OrderBook where
  buy_orders : List Order
  sell_orders : List Order
  order_map : List (String × Order)
deriving DecidableEq

/-- `OrderBook::new`. -/
def OrderBook.new : OrderBook :=
  { buy_orders := [], sell_orders := [], order_map := [] }

/-- `OrderBook::is_order_cancelled`: an id missing from the map counts as
cancelled. -/
def isCancelledIn (map : List (String × Order)) (order_id : String) : Bool :=
  match alGet order_id map with
  | some o => o.status == OrderStatus.Cancelled
  | none => true

/-- The `while let Some(BuyOrder(..)) = self.buy_orders.pop()` loop of
`OrderBook::match_sell_order`.  The fuel starts at the heap size; every
iteration removes one popped entry, so the fuel never runs out.  Returns
(sell order, heap remainder, order map, traces appended so far, filled
buys awaiting push-back). -/
def matchSellLoop :
    Nat → Order → List Order → List (String × Order) → List MatchedTrace →
    List Order →
    Order × List Order × List (String × Order) × List MatchedTrace × List Order
  | 0, sell, buys, map, traces, updated => (sell, buys, map, traces, updated)
  | fuel + 1, sell, buys, map, traces, updated =>
    match popMax buyGT buys with
    | none => (sell, buys, map, traces, updated)
    | some (buy, rest) =>
      if isCancelledIn map buy.id then
        matchSellLoop fuel sell rest map traces updated
      else if buy.price < sell.price then
        (sell, buy :: rest, map, traces, updated)
      else
        let q := min (sell.remaining_amount) (buy.remaining_amount)
        let traces1 := traces ++ [{ buy_order := buy, sell_order := sell, matched_amount := q }]
        let sell1 := sell.fill q
        let buy1 := buy.fill q
        let map1 := alSet buy1.id buy1 map
        let updated1 := if 0 < buy1.remaining_amount then updated ++ [buy1] else updated
        if sell1.remaining_amount == 0 then (sell1, rest, map1, traces1, updated1)
        else matchSellLoop fuel sell1 rest map1 traces1 updated1

/-- `OrderBook::match_sell_order`: run the loop, then push the partially
filled buys back into the heap.  Returns the updated incoming order, the
updated book and the matched traces appended to the global trace buffer. -/
def match_sell_order (sell : Order) (ob : OrderBook) :
    Order × OrderBook × List MatchedTrace :=
  let r := matchSellLoop ob.buy_orders.length sell ob.buy_orders ob.order_map [] []
  (r.1, { ob with buy_orders := r.2.1 ++ r.2.2.2.2, order_map := r.2.2.1 }, r.2.2.2.1)

/-- The pop loop of `OrderBook::match_buy_order`, mirror image of
`matchSellLoop`. -/
def matchBuyLoop :
    Nat → Order → List Order → List (String × Order) → List MatchedTrace →
    List Order →
    Order × List Order × List (String × Order) × List MatchedTrace × List Order
  | 0, buy, sells, map, traces, updated => (buy, sells, map, traces, updated)
  | fuel + 1, buy, sells, map, traces, updated =>
    match popMax sellGT sells with
    | none => (buy, sells, map, traces, updated)
    | some (sell, rest) =>
      if isCancelledIn map sell.id then
        matchBuyLoop fuel buy rest map traces updated
      else if buy.price < sell.price then
        (buy, sell :: rest, map, traces, updated)
      else
        let q := min (buy.remaining_amount) (sell.remaining_amount)
        let traces1 := traces ++ [{ buy_order := buy, sell_order := sell, matched_amount := q }]
        let buy1 := buy.fill q
        let sell1 := sell.fill q
        let map1 := alSet sell1.id sell1 map
        let updated1 := if 0 < sell1.remaining_amount then updated ++ [sell1] else updated
        if buy1.remaining_amount == 0 then (buy1, rest, map1, traces1, updated1)
        else matchBuyLoop fuel buy1 rest map1 traces1 updated1

/-- `OrderBook::match_buy_order`. -/
def match_buy_order (buy : Order) (ob : OrderBook) :
    Order × OrderBook × List MatchedTrace :=
  let r := matchBuyLoop ob.sell_orders.length buy ob.sell_orders ob.order_map [] []
  (r.1, { ob with sell_orders := r.2.1 ++ r.2.2.2.2, order_map := r.2.2.1 }, r.2.2.2.1)

/-- `OrderBook::add_order`: match against the opposite side, then rest any
remainder in the heap and the map. -/
def OrderBook.add_order (ob : OrderBook) (order : Order) :
    OrderBook × List MatchedTrace :=
  if order.side then
    let r := match_buy_order order ob
    if 0 < r.1.remaining_amount then
      ({ r.2.1 with
          order_map := alSet r.1.id r.1 r.2.1.order_map,
          buy_orders := r.2.1.buy_orders ++ [r.1] }, r.2.2)
    else (r.2.1, r.2.2)
  else
    let r := match_sell_order order ob
    if 0 < r.1.remaining_amount then
      ({ r.2.1 with
          order_map := alSet r.1.id r.1 r.2.1.order_map,
          sell_orders := r.2.1.sell_orders ++ [r.1] }, r.2.2)
    else (r.2.1, r.2.2)

/-- `OrderBook::cancel_order` with the clock explicit: absent id gives
`none`; an already cancelled order is returned unchanged; otherwise the
map entry's status becomes Cancelled (lazy removal, heaps untouched) and a
clone is returned. -/
def OrderBook.cancel_order (ob : OrderBook) (order_id : String) (now : Nat) :
    Option Order × OrderBook :=
  match alGet order_id ob.order_map with
  | none => (none, ob)
  | some o =>
    if o.status == OrderStatus.Cancelled then (some o, ob)
    else
      let o1 := { o with status := OrderStatus.Cancelled, updated_at := now }
      (some o1, { ob with order_map := alSet order_id o1 ob.order_map })

/-- `execution/src/exchange/mempool.rs::Mempool`. -/
structure Mempool where
  order_books : List (String × OrderBook)
deriving DecidableEq

/-- `Mempool::place_order` against the global state.  The declaration of
`execution/src/exchange/matching.rs` is absent from the snapshot; the
order-book code embedded above (`exchange/src/matching.rs`, which the spec
section 4.2 describes identically) stands in for it.  Returns the result,
the mempool, the state, and the traces appended to the trace buffer. -/
def Mempool.place_order (mp : Mempool) (st : State) (order : Order) :
    Except String String × Mempool × State × List MatchedTrace :=
  let bookOf := fun (mp : Mempool) (st1 : State) =>
    let book := (alGet order.pair_id mp.order_books).getD OrderBook.new
    let r := book.add_order order
    (Except.ok order.id,
     Mempool.mk (alSet order.pair_id r.1 mp.order_books), st1, r.2)
  if order.side then
    let user_balance := st.get_user_balance order.user_id order.token_b
    let frozen_balance := st.get_frozen order.user_id order.token_b
    match checkedMul order.amount order.price with
    | none => (Except.error "Arithmetic overflow: order amount * price too large", mp, st, [])
    | some order_cost =>
      match checkedAdd order_cost frozen_balance with
      | none => (Except.error "Arithmetic overflow: total required balance too large", mp, st, [])
      | some required_balance =>
        if user_balance < required_balance then
          (Except.error "Insufficient quote token balance", mp, st, [])
        else
          bookOf mp (st.freeze order.user_id order.token_b required_balance).2
  else
    let user_balance := st.get_user_balance order.user_id order.token_a
    if user_balance < order.amount then
      (Except.error "Insufficient base token balance", mp, st, [])
    else
      bookOf mp (st.freeze order.user_id order.token_a order.amount).2

/-- `Mempool::cancel_order`: look up the book, cancel there, and on any
returned order (a freshly cancelled one or one already cancelled) unfreeze
its `remaining_amount` in the reserved token (buy → quote, sell → base). -/
def Mempool.cancel_order (mp : Mempool) (st : State) (pair_id order_id : String)
    (now : Nat) : Except String Order × Mempool × State :=
  match alGet pair_id mp.order_books with
  | none => (Except.error "Trading pair not found", mp, st)
  | some book =>
    match book.cancel_order order_id now with
    | (none, book1) =>
      (Except.error "Order not found",
       Mempool.mk (alSet pair_id book1 mp.order_books), st)
    | (some co, book1) =>
      let tok := if co.side then co.token_b else co.token_a
      let st1 := (st.unfreeze co.user_id tok co.remaining_amount).2
      (Except.ok co, Mempool.mk (alSet pair_id book1 mp.order_books), st1)

/-- One trace of the settlement loop in
`execution/src/block/block_builder.rs::BlockBuilder::create_block`:
transfer base seller→buyer and quote buyer→seller (each `matched_amount`
units), then unfreeze `matched_amount` of quote for the buyer and of base
for the seller.  `none` models the `tokens[1]` panic on a malformed pair. -/
def applyTraceBuilder (st : State) (tr : MatchedTrace) : Option State :=
  (get_pair_tokens tr.buy_order.pair_id).map (fun tk =>
    let st1 := st.add_user_balance tr.buy_order.user_id tk.1 tr.matched_amount
    let st2 := (st1.sub_user_balance tr.sell_order.user_id tk.1 tr.matched_amount).2
    let st3 := (st2.sub_user_balance tr.buy_order.user_id tk.2 tr.matched_amount).2
    let st4 := st3.add_user_balance tr.sell_order.user_id tk.2 tr.matched_amount
    let st5 := (st4.unfreeze tr.buy_order.user_id tk.2 tr.matched_amount).2
    (st5.unfreeze tr.sell_order.user_id tk.1 tr.matched_amount).2)

/-- The builder's settlement of a whole pending list, trace by trace in
buffer order. -/
def applyTracesBuilder (st : State) (txns : List MatchedTrace) : Option State :=
  txns.foldlM applyTraceBuilder st

/-- One trace of the replay loop in `prover/program/src/main.rs::main`: the
same four balance transfers as the builder's settlement, with no unfreeze
calls. -/
def applyTraceOracle (st : State) (tr : MatchedTrace) : Option State :=
  (get_pair_tokens tr.buy_order.pair_id).map (fun tk =>
    let st1 := st.add_user_balance tr.buy_order.user_id tk.1 tr.matched_amount
    let st2 := (st1.sub_user_balance tr.sell_order.user_id tk.1 tr.matched_amount).2
    let st3 := (st2.sub_user_balance tr.buy_order.user_id tk.2 tr.matched_amount).2
    st3.add_user_balance tr.sell_order.user_id tk.2 tr.matched_amount)

/-- The oracle's replay of one block's trace list. -/
def applyTracesOracle (st : State) (txns : List MatchedTrace) : Option State :=
  txns.foldlM applyTraceOracle st

/-- `BlockBuilder::create_block`: increment the block number, settle every
pending trace against the state, then compute both roots.  `none` models a
panic inside the settlement loop. -/
def create_block (st : State) (block_num : Nat) (txns : List MatchedTrace) :
    Option (State × Nat × Block) :=
  let bn := block_num + 1
  (applyTracesBuilder st txns).map (fun st1 =>
    (st1, bn,
     { block_num := bn, txns := txns,
       txns_root := some (calculate_txns_root txns),
       state_root := st1.calculate_state_root }))

/-- One pass of the body of `BlockBuilder::start_block_generation` in the
case where a block is due (`should_generate_block`), with the outcome of
`save_block`'s IO as an explicit input.  Result: the state, the in-memory
block number, the block persisted (none when the save failed), and whether
the loop continues to the next tick — on a save error the `?` operator
propagates the error out of `start_block_generation`, ending the loop. -/
def builderIteration (st : State) (block_num : Nat) (pending : List MatchedTrace)
    (saveOk : Bool) : Option (State × Nat × Option Block × Bool) :=
  (create_block st block_num pending).map (fun r =>
    if saveOk then (r.1, r.2.1, some r.2.2, true)
    else (r.1, r.2.1, none, false))

/-- `unwrap_or_default()` of an optional 32-byte root. -/
def rootOrDefault (r : Option (List Nat)) : List Nat :=
  r.getD (List.replicate 32 0)

/-- The per-block loop of `prover/program/src/main.rs::main`: replay the
block's traces, recompute and assert both roots (a failed `assert!` is
`none`), and collect the recomputed txns roots. -/
def oracleLoop : State → List Block → List (List Nat) →
    Option (State × List (List Nat))
  | st, [], acc => some (st, acc)
  | st, b :: rest, acc =>
    (applyTracesOracle st b.txns).bind (fun st1 =>
      if rootOrDefault st1.calculate_state_root == rootOrDefault b.state_root then
        let troot := prover_txns_root b.txns
        if troot == rootOrDefault b.txns_root then oracleLoop st1 rest (acc ++ [troot])
        else none
      else none)

/-- `prover/program/src/main.rs::main`: the whole re-execution program.
`none` models a panic (`unwrap` of an empty block list or a failed
`assert!`); `some pi` is the committed public-input hash. -/
def oracleMain (st : State) (blocks : List Block) : Option (List Nat) :=
  match blocks.head?, blocks.getLast? with
  | some fb, some lb =>
    let prev := rootOrDefault fb.state_root
    let post := rootOrDefault lb.state_root
    if prev == rootOrDefault st.calculate_state_root then
      (oracleLoop st blocks []).map (fun r =>
        calculate_pi_hash prev post (calculate_da_hash r.2))
    else none
  | _, _ => none

/-- The HTTP response envelope of `execution/src/server.rs::ApiResponse`,
reduced to the observable success flag and error text. -/
structure ApiResp where
  success : Bool
  error : Option String
deriving DecidableEq

/-- `execution/src/server.rs::handle_withdraw`: calls `sub_user_balance`,
discards its boolean result, and always answers with
`ApiResponse::success(())`. -/
def handle_withdraw (st : State) (user_id token : String) (amount : Nat) :
    ApiResp × State :=
  let r := st.sub_user_balance user_id token amount
  ({ success := true, error := none }, r.2)

/-- `execution/src/server.rs::handle_place_order`: build the `Order` (which
panics inside `get_pair_tokens` on a pair id without a separator — `none`),
hand it to the mempool, and wrap the outcome in an `ApiResponse`. -/
def handle_place_order (mp : Mempool) (st : State) (user_id pair_id : String)
    (amount price : Nat) (side : Bool) (order_id : String) (now : Nat) :
    Option (ApiResp × Mempool × State × List MatchedTrace) :=
  (Order.new order_id user_id pair_id amount price side now).map (fun o =>
    match mp.place_order st o with
    | (Except.ok _, mp1, st1, tr) => ({ success := true, error := none }, mp1, st1, tr)
    | (Except.error e, mp1, st1, tr) => ({ success := false, error := some e }, mp1, st1, tr))


/-- The leaf digest exactly as claim C3 words it: SHA3-256 of the user id's
bytes followed, per token in ascending token-id-byte order, by the token's
bytes, the free balance as 8 little-endian bytes and the frozen balance as
8 little-endian bytes.  (This is `userLeafBytes` hashed; it is compared
against the source's `calculate_user_hash`.) -/
def claimedLeafHash (user_id : String) (acct : List (String × Bal)) : List Nat :=
  sha3_256 (userLeafBytes user_id acct)

/-- The claim-side reading of the oracle's per-block assertions: replaying
block by block, every recomputed state root and txns root must equal the
root embedded in the block (and the replay itself must not panic). -/
def replayChecks : State → List Block → Bool
  | _, [] => true
  | st, b :: rest =>
    match applyTracesOracle st b.txns with
    | none => false
    | some st1 =>
      (rootOrDefault st1.calculate_state_root == rootOrDefault b.state_root)
        && (prover_txns_root b.txns == rootOrDefault b.txns_root)
        && replayChecks st1 rest

/-- "`id1` fills before `id2`" in an emitted trace list: the list splits
into a prefix that never mentions `id2`, such that if `id2` is mentioned at
all, the prefix already contains a trace for `id1`. -/
def fillsBefore (out : List MatchedTrace) (pick : MatchedTrace → String)
    (id1 id2 : String) : Prop :=
  ∃ pre post, out = pre ++ post ∧ (∀ t ∈ pre, pick t ≠ id2) ∧
    ((∃ t ∈ out, pick t = id2) → ∃ t1 ∈ pre, pick t1 = id1)

/-- Fixture: a buy order of user A on the pair BTC_USDT. -/
def ordBuyA : Order :=
  { id := "b1", user_id := "A", pair_id := "BTC_USDT", token_a := "BTC",
    token_b := "USDT", amount := 10, filled_amount := 0, price := 1,
    side := true, status := OrderStatus.Pending, created_at := 1, updated_at := 1 }

/-- Fixture: a sell order of user B on the pair BTC_USDT. -/
def ordSellB : Order :=
  { id := "s1", user_id := "B", pair_id := "BTC_USDT", token_a := "BTC",
    token_b := "USDT", amount := 10, filled_amount := 0, price := 1,
    side := false, status := OrderStatus.Pending, created_at := 1, updated_at := 1 }

/-- Fixture: the matched trace of `ordBuyA` against `ordSellB` for 10 units. -/
def trAB : MatchedTrace :=
  { buy_order := ordBuyA, sell_order := ordSellB, matched_amount := 10 }

/-- Fixture: A holds 100 free / 50 frozen USDT, B holds 50 free / 30 frozen
BTC — a state as the engine leaves it between admission and settlement. -/
def stAB : State :=
  { user_balances :=
      [("A", [("USDT", { free := 100, frozen := 50 })]),
       ("B", [("BTC", { free := 50, frozen := 30 })])] }

/-- Fixture: user u1 with 300 free and 100 already-frozen USDT. -/
def stC5 : State :=
  { user_balances := [("u1", [("USDT", { free := 300, frozen := 100 })])] }

/-- Fixture: a second buy of u1, 1 BTC at price 100 (cost 100). -/
def ordC5 : Order :=
  { id := "o5", user_id := "u1", pair_id := "BTC_USDT", token_a := "BTC",
    token_b := "USDT", amount := 1, filled_amount := 0, price := 100,
    side := true, status := OrderStatus.Pending, created_at := 1, updated_at := 1 }

/-- Fixture: a resting buy of u7, 2 BTC at price 100 (200 USDT reserved). -/
def ordC7 : Order :=
  { id := "o7", user_id := "u7", pair_id := "BTC_USDT", token_a := "BTC",
    token_b := "USDT", amount := 2, filled_amount := 0, price := 100,
    side := true, status := OrderStatus.Pending, created_at := 1, updated_at := 1 }

/-- Fixture: the book holding `ordC7`, resting and live. -/
def mp7 : Mempool :=
  { order_books :=
      [("BTC_USDT",
        { buy_orders := [ordC7], sell_orders := [], order_map := [("o7", ordC7)] })] }

/-- Fixture: u7's state after admission froze the 200 USDT reservation. -/
def st7 : State :=
  { user_balances := [("u7", [("USDT", { free := 0, frozen := 200 })])] }

/-- Fixture: a user with 5 free units of token T. -/
def stW : State :=
  { user_balances := [("w", [("T", { free := 5, frozen := 0 })])] }

/-- Fixture: an arbitrary block for exercising the oracle. -/
def blkW4 : Block :=
  { block_num := 1, txns := [], txns_root := none, state_root := none }


/-- Fixture: the first mempool-level cancellation of `ordC7`. -/
def cancelOnce : Except String Order × Mempool × State :=
  mp7.cancel_order st7 "BTC_USDT" "o7" 5

/-- Fixture: cancelling `ordC7` again on the resulting mempool and state. -/
def cancelTwice : Except String Order × Mempool × State :=
  cancelOnce.2.1.cancel_order cancelOnce.2.2 "BTC_USDT" "o7" 6



/-- Fixture: a resting buy at price 101, created at t=1. -/
def wB1 : Order :=
  { id := "b1", user_id := "U1", pair_id := "BTC_USDT", token_a := "BTC",
    token_b := "USDT", amount := 5, filled_amount := 0, price := 101,
    side := true, status := OrderStatus.Pending, created_at := 1, updated_at := 1 }

/-- Fixture: a resting buy at the lower price 100, created at t=2. -/
def wB2 : Order :=
  { id := "b2", user_id := "U2", pair_id := "BTC_USDT", token_a := "BTC",
    token_b := "USDT", amount := 5, filled_amount := 0, price := 100,
    side := true, status := OrderStatus.Pending, created_at := 2, updated_at := 2 }

/-- Fixture: an arriving sell at price 100 crossing both resting buys. -/
def wSell : Order :=
  { id := "sX", user_id := "U3", pair_id := "BTC_USDT", token_a := "BTC",
    token_b := "USDT", amount := 8, filled_amount := 0, price := 100,
    side := false, status := OrderStatus.Pending, created_at := 3, updated_at := 3 }

/-- Fixture: the book resting `wB1` and `wB2` (heap order scrambled). -/
def wBookBuys : OrderBook :=
  { buy_orders := [wB2, wB1], sell_orders := [],
    order_map := [("b2", wB2), ("b1", wB1)] }

/-- Fixture: a resting sell at price 99, created at t=1. -/
def wS1 : Order :=
  { id := "s1", user_id := "U1", pair_id := "BTC_USDT", token_a := "BTC",
    token_b := "USDT", amount := 5, filled_amount := 0, price := 99,
    side := false, status := OrderStatus.Pending, created_at := 1, updated_at := 1 }

/-- Fixture: a resting sell at the higher price 100, created at t=2. -/
def wS2 : Order :=
  { id := "s2", user_id := "U2", pair_id := "BTC_USDT", token_a := "BTC",
    token_b := "USDT", amount := 5, filled_amount := 0, price := 100,
    side := false, status := OrderStatus.Pending, created_at := 2, updated_at := 2 }

/-- Fixture: an arriving buy at price 100 crossing both resting sells. -/
def wBuy : Order :=
  { id := "bX", user_id := "U3", pair_id := "BTC_USDT", token_a := "BTC",
    token_b := "USDT", amount := 8, filled_amount := 0, price := 100,
    side := true, status := OrderStatus.Pending, created_at := 3, updated_at := 3 }

/-- Fixture: the book resting `wS1` and `wS2`. -/
def wBookSells : OrderBook :=
  { buy_orders := [], sell_orders := [wS2, wS1],
    order_map := [("s2", wS2), ("s1", wS1)] }

/-- SHA3-256 of the empty message matches the published test vector. -/
theorem sha3_256_empty_vector :
    sha3_256 [] =
      [167, 255, 198, 248, 191, 30, 215, 102, 81, 193, 71, 86, 160, 97, 214, 98,
       245, 128, 255, 77, 228, 59, 73, 250, 130, 216, 10, 75, 128, 248, 67, 74] := by
  decide

/-- SHA3-256 of "abc" matches the published test vector. -/
theorem sha3_256_abc_vector :
    sha3_256 [97, 98, 99] =
      [58, 152, 93, 167, 79, 226, 37, 178, 4, 92, 23, 45, 107, 211, 144, 189,
       133, 95, 8, 110, 62, 157, 82, 91, 70, 191, 226, 69, 17, 67, 21, 50] := by
  decide


/-- Folding "append the image of each element" equals appending the
flattened image: the link between the incremental hasher's update loop and
a single concatenated byte stream. -/
theorem foldl_append_eq_flatten (f : α → List β) (l : List α) (acc : List β) :
    l.foldl (fun a p => a ++ f p) acc = acc ++ (l.map f).flatten := by
  induction l generalizing acc with
  | nil => simp
  | cons x xs ih => simp [ih, List.append_assoc]

/-- C1.  The claim states that the oracle's per-trace add/sub replay
reaches the same final state as the builder's settlement, and that the two
txns-root computations agree.  The code refutes the first half: the
builder's settlement performs two unfreeze calls per trace that the
prover program's replay omits, so from a state with a non-zero frozen
balance the final states differ (here in buyer A's frozen USDT); the two
txns-root functions are identical and agree on every trace list. -/
theorem oracle_replay_omits_unfreeze :
    (((applyTracesBuilder stAB [trAB]).map (fun s => s.get_frozen "A" "USDT")) ≠
      ((applyTracesOracle stAB [trAB]).map (fun s => s.get_frozen "A" "USDT"))) ∧
    ∀ txns : List MatchedTrace, calculate_txns_root txns = prover_txns_root txns :=
  ⟨by decide, fun _ => rfl⟩

/-- C2.  `gen_state_root` hashes the user leaves in the order the balance
map's iteration yields them; two enumerations of the same two-user contents
produce different Merkle roots, so the root is not a function of the
(user, token) → balance mapping alone — the canonical user-id sort the
claim describes is absent from the source. -/
theorem gen_state_root_depends_on_iteration_order :
    gen_state_root [("alice", [("BTC", 1)]), ("bob", [("BTC", 2)])] ≠
      gen_state_root [("bob", [("BTC", 2)]), ("alice", [("BTC", 1)])] := by
  decide

/-- C3 counterexample.  For user "u" holding 5 units of token "T" (nothing
frozen), the leaf the source computes — which covers only the single stored
balance — differs from the digest the claim describes, which also covers an
8-byte frozen component per token. -/
theorem user_leaf_has_no_frozen_component :
    calculate_user_hash "u" [("T", 5)] ≠
      claimedLeafHash "u" [("T", { free := 5, frozen := 0 })] := by
  decide

/-- C3 as amended: the leaf for a user is SHA3-256 of the user id's bytes
followed, for each token in ascending token-id-byte order, by the token's
bytes and the stored balance as 8 little-endian bytes — one 8-byte balance
per token, with no frozen component. -/
theorem calculate_user_hash_free_only (user_id : String)
    (balances : List (String × Nat)) :
    calculate_user_hash user_id balances =
      sha3_256 (strBytes user_id ++
        ((sort_by_key (fun a b => strLe a.1 b.1) balances).map
          (fun p => strBytes p.1 ++ le8 p.2)).flatten) := by
  unfold calculate_user_hash
  simp only [List.append_assoc]
  exact congrArg sha3_256
    (foldl_append_eq_flatten (fun (p : String × Nat) => strBytes p.1 ++ le8 p.2) _ _)

/-- C5.  From 300 free and 100 already-frozen USDT, a buy of 1 at price 100
(required = 100) is admitted, but the mempool hands `freeze` the sum
required + already-frozen, so the frozen balance becomes 300 and the free
balance 100 — not the 200/200 the claim's "exactly required is frozen,
existing reservations intact" demands. -/
theorem place_order_freezes_required_plus_frozen :
    (((Mempool.mk []).place_order stC5 ordC5).1 = Except.ok "o5") ∧
    (((Mempool.mk []).place_order stC5 ordC5).2.2.1.get_frozen "u1" "USDT" = 300) ∧
    (((Mempool.mk []).place_order stC5 ordC5).2.2.1.get_user_balance "u1" "USDT" = 100) :=
  ⟨rfl, by decide, by decide⟩

/-- C7.  Cancelling `ordC7` twice: the second call returns the same
cancelled order as the first, but it reaches the unfreeze step again and
moves another `remaining_amount` from u7's frozen USDT to free — the state
after the repeated cancel differs from the state after the first. -/
theorem repeated_cancel_moves_funds :
    cancelTwice.1 = cancelOnce.1 ∧ cancelTwice.2.2 ≠ cancelOnce.2.2 :=
  ⟨rfl, by decide⟩

/-- C8 counterexample.  With one pending trace and a failing save, the
iteration advances the in-memory block number to 1, leaves the balance
state mutated by the settlement, and reports that the build loop does not
continue — the claim's "state unchanged, number not advanced, retried on
the next tick" fails on all three counts. -/
theorem builder_save_error_counterexample :
    ((builderIteration stAB 0 [trAB] false).map (fun r => r.2.1) = some 1) ∧
    ((builderIteration stAB 0 [trAB] false).map (fun r => r.1) ≠ some stAB) ∧
    ((builderIteration stAB 0 [trAB] false).map (fun r => r.2.2.2) = some false) := by
  refine ⟨?_, ?_, ?_⟩ <;> decide

/-- C8 as amended: when `save_block` fails, the `?` operator propagates the
error out of `start_block_generation`, so the loop ends (no retry on a
later tick) and no block is persisted, while the balance-state mutations
and the block-number increment already made by `create_block` remain. -/
theorem builder_save_error_aborts_loop (st : State) (block_num : Nat)
    (pending : List MatchedTrace) :
    builderIteration st block_num pending false =
      (applyTracesBuilder st pending).map
        (fun st1 => (st1, block_num + 1, none, false)) := by
  unfold builderIteration create_block
  cases applyTracesBuilder st pending <;> simp

/-- C9.  A pair id with no underscore ("ETHUSDT") makes `get_pair_tokens`
index past the end of the split (a panic, embedded as `none`), so
`handle_place_order` panics inside `Order::new` instead of returning the
malformed-pair admission error the claim describes. -/
theorem malformed_pair_panics_not_errors :
    get_pair_tokens "ETHUSDT" = none ∧
    handle_place_order (Mempool.mk []) (State.mk []) "u" "ETHUSDT" 1 1 true "oid" 0 = none := by
  refine ⟨?_, ?_⟩ <;> decide

/-- C10.  When the requested amount exceeds the user's free balance,
`sub_user_balance` returns `false` and leaves the state untouched;
`handle_withdraw` discards that boolean and answers success with no error,
so the insufficient-balance condition is never surfaced. -/
theorem handle_withdraw_swallows_insufficient (st : State) (user_id token : String)
    (amount : Nat) (h : st.get_user_balance user_id token < amount) :
    handle_withdraw st user_id token amount =
      ({ success := true, error := none }, st) := by
  unfold handle_withdraw State.sub_user_balance
  simp [Nat.not_le.mpr h]

/-- C10 witness: user w holds 5 free units of T and withdraws 10. -/
theorem handle_withdraw_swallows_witness :
    stW.get_user_balance "w" "T" < 10 ∧
      handle_withdraw stW "w" "T" 10 = ({ success := true, error := none }, stW) :=
  ⟨by decide, handle_withdraw_swallows_insufficient stW "w" "T" 10 (by decide)⟩


/-- The oracle's block loop succeeds exactly when the claim-side assertion
predicate holds, and then it has appended precisely the recomputed
per-block txns roots, in block order. -/
theorem oracleLoop_eq (bs : List Block) :
    ∀ (st : State) (acc : List (List Nat)),
      (replayChecks st bs = true →
        ∃ stf, oracleLoop st bs acc =
          some (stf, acc ++ bs.map (fun b => prover_txns_root b.txns))) ∧
      (replayChecks st bs = false → oracleLoop st bs acc = none) := by
  induction bs with
  | nil =>
    intro st acc
    refine ⟨fun _ => ⟨st, by simp [oracleLoop]⟩, fun h => by simp [replayChecks] at h⟩
  | cons b rest ih =>
    intro st acc
    unfold replayChecks oracleLoop
    cases happ : applyTracesOracle st b.txns with
    | none => exact ⟨fun h => by simp at h, fun _ => by simp⟩
    | some st1 =>
      simp only [Option.bind_eq_bind, Option.some_bind]
      constructor
      · intro h
        simp only [Bool.and_eq_true] at h
        obtain ⟨⟨h1, h2⟩, h3⟩ := h
        simp only [h1, h2, if_true]
        obtain ⟨stf, heq⟩ := (ih st1 (acc ++ [prover_txns_root b.txns])).1 h3
        exact ⟨stf, by rw [heq]; simp⟩
      · intro h
        by_cases h1 : (rootOrDefault st1.calculate_state_root ==
            rootOrDefault b.state_root) = true
        · rw [if_pos h1]
          by_cases h2 : (prover_txns_root b.txns == rootOrDefault b.txns_root) = true
          · rw [if_pos h2]
            rw [h1, h2] at h
            simp only [Bool.true_and] at h
            exact (ih st1 (acc ++ [prover_txns_root b.txns])).2 h
          · rw [if_neg h2]
        · rw [if_neg h1]

/-- C4.  On a non-empty block list the re-execution program replays the
blocks in order; it commits a value exactly when the initial state-root
assertion and every per-block assertion (recomputed post-state root and
txns root both equal to the roots embedded in the block) pass, and that
value is pi = SHA3-256(prev || post || da) with prev the first block's
state root, post the last block's state root, and da the SHA3-256 of the
concatenated per-block txns roots. -/
theorem oracle_commits_claimed_pi (st : State) (blocks : List Block)
    (hne : blocks ≠ []) :
    oracleMain st blocks =
      if (rootOrDefault (blocks.head hne).state_root ==
            rootOrDefault st.calculate_state_root) && replayChecks st blocks then
        some (sha3_256 (rootOrDefault (blocks.head hne).state_root ++
          rootOrDefault (blocks.getLast hne).state_root ++
          sha3_256 ((blocks.map (fun b => prover_txns_root b.txns)).flatten)))
      else none := by
  unfold oracleMain
  rw [List.head?_eq_head hne, List.getLast?_eq_getLast _ hne]
  by_cases hc : (rootOrDefault (blocks.head hne).state_root ==
      rootOrDefault st.calculate_state_root) = true
  · simp only [hc, if_true, Bool.true_and]
    by_cases hck : replayChecks st blocks = true
    · obtain ⟨stf, heq⟩ := (oracleLoop_eq blocks st []).1 hck
      rw [heq, hck]
      simp only [if_true, Option.map]
      congr 2
      unfold calculate_da_hash
      congr 1
      rw [foldl_append_eq_flatten (fun (r : List Nat) => r)]
      simp
      rfl
    · have hckf : replayChecks st blocks = false := by simpa using hck
      rw [(oracleLoop_eq blocks st []).2 hckf, hckf]
      simp
  · have hcf : (rootOrDefault (blocks.head hne).state_root ==
        rootOrDefault st.calculate_state_root) = false := by simpa using hc
    rw [hcf]
    simp
    exact fun h => absurd h (by simpa using hc)

/-- C4 witness: the oracle applied to the empty initial state and the
single fixture block. -/
theorem oracle_commits_claimed_pi_witness :
    oracleMain (State.mk []) [blkW4] =
      if (rootOrDefault blkW4.state_root ==
            rootOrDefault (State.mk []).calculate_state_root) &&
          replayChecks (State.mk []) [blkW4] then
        some (sha3_256 (rootOrDefault blkW4.state_root ++
          rootOrDefault blkW4.state_root ++
          sha3_256 (([blkW4].map (fun b => prover_txns_root b.txns)).flatten)))
      else none :=
  oracle_commits_claimed_pi (State.mk []) [blkW4] (List.cons_ne_nil _ _)


theorem buyGT_iff (a b : Order) : buyGT a b = true ↔
    b.price < a.price ∨ (a.price = b.price ∧ a.created_at < b.created_at) := by
  unfold buyGT buyCmp
  rcases Nat.lt_trichotomy a.price b.price with h | h | h
  · rw [Nat.compare_eq_lt.mpr h]
    rw [show (Ordering.lt == Ordering.gt) = false from rfl]
    simp
    omega
  · rw [Nat.compare_eq_eq.mpr h]
    rcases Nat.lt_trichotomy a.created_at b.created_at with h2 | h2 | h2
    · rw [Nat.compare_eq_gt.mpr h2]
      rw [show (Ordering.gt == Ordering.gt) = true from rfl]
      simp
      omega
    · rw [h2, Nat.compare_eq_eq.mpr rfl]
      rw [show (Ordering.eq == Ordering.gt) = false from rfl]
      simp
      omega
    · rw [Nat.compare_eq_lt.mpr h2]
      rw [show (Ordering.lt == Ordering.gt) = false from rfl]
      simp
      omega
  · rw [Nat.compare_eq_gt.mpr h]
    rw [show (Ordering.gt == Ordering.gt) = true from rfl]
    simp
    omega

theorem sellGT_iff (a b : Order) : sellGT a b = true ↔
    a.price < b.price ∨ (b.price = a.price ∧ a.created_at < b.created_at) := by
  unfold sellGT sellCmp
  rcases Nat.lt_trichotomy b.price a.price with h | h | h
  · rw [Nat.compare_eq_lt.mpr h]
    rw [show (Ordering.lt == Ordering.gt) = false from rfl]
    simp
    omega
  · rw [Nat.compare_eq_eq.mpr h]
    rcases Nat.lt_trichotomy a.created_at b.created_at with h2 | h2 | h2
    · rw [Nat.compare_eq_gt.mpr h2]
      rw [show (Ordering.gt == Ordering.gt) = true from rfl]
      simp
      omega
    · rw [h2, Nat.compare_eq_eq.mpr rfl]
      rw [show (Ordering.eq == Ordering.gt) = false from rfl]
      simp
      omega
    · rw [Nat.compare_eq_lt.mpr h2]
      rw [show (Ordering.lt == Ordering.gt) = false from rfl]
      simp
      omega
  · rw [Nat.compare_eq_gt.mpr h]
    rw [show (Ordering.gt == Ordering.gt) = true from rfl]
    simp
    omega

theorem buyGT_irrefl (a : Order) : buyGT a a = false := by
  rw [Bool.eq_false_iff, Ne, buyGT_iff]; omega

theorem buyGT_asymm (a b : Order) (h : buyGT a b = true) : buyGT b a = false := by
  rw [buyGT_iff] at h
  rw [Bool.eq_false_iff, Ne, buyGT_iff]
  omega

theorem buyGT_cotrans (a b c : Order) (h : buyGT a c = true) :
    buyGT a b = true ∨ buyGT b c = true := by
  rw [buyGT_iff] at h
  rw [buyGT_iff, buyGT_iff]
  omega

theorem buyGT_false_price (a b : Order) (h : buyGT a b = false) :
    a.price ≤ b.price := by
  have h2 : ¬ (buyGT a b = true) := by simp [h]
  rw [buyGT_iff] at h2
  omega

theorem sellGT_irrefl (a : Order) : sellGT a a = false := by
  rw [Bool.eq_false_iff, Ne, sellGT_iff]; omega

theorem sellGT_asymm (a b : Order) (h : sellGT a b = true) : sellGT b a = false := by
  rw [sellGT_iff] at h
  rw [Bool.eq_false_iff, Ne, sellGT_iff]
  omega

theorem sellGT_cotrans (a b c : Order) (h : sellGT a c = true) :
    sellGT a b = true ∨ sellGT b c = true := by
  rw [sellGT_iff] at h
  rw [sellGT_iff, sellGT_iff]
  omega

theorem sellGT_false_price (a b : Order) (h : sellGT a b = false) :
    b.price ≤ a.price := by
  have h2 : ¬ (sellGT a b = true) := by simp [h]
  rw [sellGT_iff] at h2
  omega


theorem popMax_none_eq_nil (gt : α → α → Bool) :
    ∀ l : List α, popMax gt l = none → l = [] := by
  intro l
  cases l with
  | nil => intro _; rfl
  | cons o os =>
    intro h
    unfold popMax at h
    cases hrec : popMax gt os with
    | none => rw [hrec] at h; simp at h
    | some p =>
      obtain ⟨m1, r1⟩ := p
      rw [hrec] at h
      dsimp at h
      split at h <;> simp at h

theorem popMax_mem_or (gt : α → α → Bool) :
    ∀ (l : List α) (m : α) (r : List α), popMax gt l = some (m, r) →
      ∀ a ∈ l, a = m ∨ a ∈ r := by
  intro l
  induction l with
  | nil => intro m r h; simp [popMax] at h
  | cons o os ih =>
    intro m r h a ha
    unfold popMax at h
    cases hrec : popMax gt os with
    | none =>
      rw [hrec] at h
      simp only [Option.some.injEq, Prod.mk.injEq] at h
      obtain ⟨h1, h2⟩ := h
      subst h2
      rw [← h1]
      have hnil : os = [] := popMax_none_eq_nil gt os hrec
      subst hnil
      rcases List.mem_cons.mp ha with ha1 | ha1
      · left; exact ha1
      · simp at ha1
    | some p =>
      obtain ⟨m1, r1⟩ := p
      rw [hrec] at h
      dsimp at h
      split at h
      case isTrue hgt =>
        simp only [Option.some.injEq, Prod.mk.injEq] at h
        obtain ⟨h1, h2⟩ := h
        subst h2
        rw [← h1]
        rcases List.mem_cons.mp ha with ha1 | ha1
        · right; rw [ha1]; exact List.mem_cons_self _ _
        · rcases ih m1 r1 hrec a ha1 with h3 | h3
          · left; exact h3
          · right; exact List.mem_cons_of_mem _ h3
      case isFalse hgt =>
        simp only [Option.some.injEq, Prod.mk.injEq] at h
        obtain ⟨h1, h2⟩ := h
        subst h2
        rw [← h1]
        rcases List.mem_cons.mp ha with ha1 | ha1
        · left; exact ha1
        · right; exact ha1

theorem popMax_rest_sub (gt : α → α → Bool) :
    ∀ (l : List α) (m : α) (r : List α), popMax gt l = some (m, r) →
      ∀ x ∈ r, x ∈ l := by
  intro l
  induction l with
  | nil => intro m r h; simp [popMax] at h
  | cons o os ih =>
    intro m r h x hx
    unfold popMax at h
    cases hrec : popMax gt os with
    | none =>
      rw [hrec] at h
      simp only [Option.some.injEq, Prod.mk.injEq] at h
      obtain ⟨h1, h2⟩ := h
      subst h2
      simp at hx
    | some p =>
      obtain ⟨m1, r1⟩ := p
      rw [hrec] at h
      dsimp at h
      split at h
      case isTrue hgt =>
        simp only [Option.some.injEq, Prod.mk.injEq] at h
        obtain ⟨h1, h2⟩ := h
        subst h2
        rcases List.mem_cons.mp hx with hx1 | hx1
        · rw [hx1]; exact List.mem_cons_self _ _
        · exact List.mem_cons_of_mem _ (ih m1 r1 hrec x hx1)
      case isFalse hgt =>
        simp only [Option.some.injEq, Prod.mk.injEq] at h
        obtain ⟨h1, h2⟩ := h
        subst h2
        exact List.mem_cons_of_mem _ hx

theorem popMax_fst_mem (gt : α → α → Bool) :
    ∀ (l : List α) (m : α) (r : List α), popMax gt l = some (m, r) → m ∈ l := by
  intro l
  induction l with
  | nil => intro m r h; simp [popMax] at h
  | cons o os ih =>
    intro m r h
    unfold popMax at h
    cases hrec : popMax gt os with
    | none =>
      rw [hrec] at h
      simp only [Option.some.injEq, Prod.mk.injEq] at h
      rw [← h.1]
      exact List.mem_cons_self _ _
    | some p =>
      obtain ⟨m1, r1⟩ := p
      rw [hrec] at h
      dsimp at h
      split at h
      case isTrue hgt =>
        simp only [Option.some.injEq, Prod.mk.injEq] at h
        rw [← h.1]
        exact List.mem_cons_of_mem _ (ih m1 r1 hrec)
      case isFalse hgt =>
        simp only [Option.some.injEq, Prod.mk.injEq] at h
        rw [← h.1]
        exact List.mem_cons_self _ _

theorem popMax_max (gt : α → α → Bool)
    (hirr : ∀ a : α, gt a a = false)
    (hasym : ∀ a b : α, gt a b = true → gt b a = false)
    (hcotr : ∀ a b c : α, gt a c = true → gt a b = true ∨ gt b c = true) :
    ∀ (l : List α) (m : α) (r : List α), popMax gt l = some (m, r) →
      ∀ x ∈ l, gt x m = false := by
  intro l
  induction l with
  | nil => intro m r h; simp [popMax] at h
  | cons o os ih =>
    intro m r h x hx
    unfold popMax at h
    cases hrec : popMax gt os with
    | none =>
      rw [hrec] at h
      simp only [Option.some.injEq, Prod.mk.injEq] at h
      obtain ⟨h1, _⟩ := h
      rw [← h1]
      have hnil : os = [] := popMax_none_eq_nil gt os hrec
      subst hnil
      rcases List.mem_cons.mp hx with hx1 | hx1
      · rw [hx1]; exact hirr o
      · simp at hx1
    | some p =>
      obtain ⟨m1, r1⟩ := p
      rw [hrec] at h
      dsimp at h
      split at h
      case isTrue hgt =>
        simp only [Option.some.injEq, Prod.mk.injEq] at h
        obtain ⟨h1, _⟩ := h
        rw [← h1]
        rcases List.mem_cons.mp hx with hx1 | hx1
        · rw [hx1]; exact hasym m1 o hgt
        · exact ih m1 r1 hrec x hx1
      case isFalse hgt =>
        simp only [Option.some.injEq, Prod.mk.injEq] at h
        obtain ⟨h1, _⟩ := h
        rw [← h1]
        rcases List.mem_cons.mp hx with hx1 | hx1
        · rw [hx1]; exact hirr o
        · have hxm1 : gt x m1 = false := ih m1 r1 hrec x hx1
          cases hxo : gt x o
          · rfl
          · rcases hcotr x m1 o hxo with h3 | h3
            · rw [hxm1] at h3; cases h3
            · rw [h3] at hgt; exact absurd rfl hgt

end Clob

namespace Clob

theorem alGet_alSet_ne (k k1 : String) (v : α) (m : List (String × α))
    (h : k1 ≠ k) : alGet k (alSet k1 v m) = alGet k m := by
  have hb : (k1 == k) = false := by
    cases hh : k1 == k
    · rfl
    · exact absurd (by simpa using hh) h
  induction m with
  | nil => simp [alSet, alGet, List.find?, hb]
  | cons p rest ih =>
    obtain ⟨pk, pv⟩ := p
    simp only [alSet]
    by_cases hpk : (pk == k1) = true
    · rw [if_pos hpk]
      have hpe : pk = k1 := by simpa using hpk
      subst hpe
      simp [alGet, List.find?, hb]
    · rw [if_neg hpk]
      simp only [alGet, List.find?]
      cases hpkk : pk == k
      · simpa [alGet] using ih
      · simp

theorem Order.fill_price (o : Order) (q : Nat) : (o.fill q).price = o.price := rfl

theorem Order.fill_id (o : Order) (q : Nat) : (o.fill q).id = o.id := rfl

theorem matchSellLoop_traces_mono :
    ∀ (fuel : Nat) (sell : Order) (buys : List Order) (map : List (String × Order))
      (ts : List MatchedTrace) (upd : List Order),
      ∃ d, (matchSellLoop fuel sell buys map ts upd).2.2.2.1 = ts ++ d := by
  intro fuel
  induction fuel with
  | zero => intro sell buys map ts upd; exact ⟨[], by simp [matchSellLoop]⟩
  | succ n ih =>
    intro sell buys map ts upd
    rw [matchSellLoop]
    cases hp : popMax buyGT buys with
    | none => exact ⟨[], by simp⟩
    | some p =>
      obtain ⟨buy, rest⟩ := p
      dsimp only
      by_cases hcanc : isCancelledIn map buy.id = true
      · rw [if_pos hcanc]
        exact ih sell rest map ts upd
      · rw [if_neg hcanc]
        by_cases hpr : buy.price < sell.price
        · rw [if_pos hpr]
          exact ⟨[], by simp⟩
        · rw [if_neg hpr]
          by_cases hz : ((sell.fill (min sell.remaining_amount buy.remaining_amount)).remaining_amount == 0) = true
          · rw [if_pos hz]
            exact ⟨[{ buy_order := buy, sell_order := sell,
                      matched_amount := min sell.remaining_amount buy.remaining_amount }], rfl⟩
          · rw [if_neg hz]
            obtain ⟨d, hd⟩ := ih (sell.fill (min sell.remaining_amount buy.remaining_amount)) rest
              (alSet (buy.fill (min sell.remaining_amount buy.remaining_amount)).id
                (buy.fill (min sell.remaining_amount buy.remaining_amount)) map)
              (ts ++ [{ buy_order := buy, sell_order := sell,
                        matched_amount := min sell.remaining_amount buy.remaining_amount }])
              (if 0 < (buy.fill (min sell.remaining_amount buy.remaining_amount)).remaining_amount then
                upd ++ [buy.fill (min sell.remaining_amount buy.remaining_amount)] else upd)
            exact ⟨{ buy_order := buy, sell_order := sell,
                     matched_amount := min sell.remaining_amount buy.remaining_amount } :: d,
              by rw [hd]; simp⟩

end Clob

namespace Clob

theorem matchSellLoop_priority (b1 : Order) (b2id : String) :
    ∀ (fuel : Nat) (sell : Order) (buys : List Order) (map : List (String × Order))
      (ts : List MatchedTrace) (upd : List Order),
      b1 ∈ buys →
      alGet b1.id map = some b1 →
      (b1.status == OrderStatus.Cancelled) = false →
      (∀ o ∈ buys, o.id = b2id → buyGT b1 o = true) →
      b1.id ≠ b2id →
      sell.price ≤ b1.price →
      (∀ t ∈ ts, t.buy_order.id ≠ b2id) →
      fillsBefore (matchSellLoop fuel sell buys map ts upd).2.2.2.1
        (fun t => t.buy_order.id) b1.id b2id := by
  intro fuel
  induction fuel with
  | zero =>
    intro sell buys map ts upd _ _ _ _ _ _ hts
    refine ⟨ts, [], by simp [matchSellLoop], hts, ?_⟩
    rintro ⟨t, ht, hid⟩
    exact absurd hid (hts t (by simpa [matchSellLoop] using ht))
  | succ n ih =>
    intro sell buys map ts upd hb1 hmap hnc hb2 hne hcross hts
    rw [matchSellLoop]
    cases hp : popMax buyGT buys with
    | none =>
      have hnil : buys = [] := popMax_none_eq_nil _ buys hp
      rw [hnil] at hb1
      simp at hb1
    | some p =>
      obtain ⟨buy, rest⟩ := p
      dsimp only
      have hmax : ∀ x ∈ buys, buyGT x buy = false :=
        popMax_max buyGT buyGT_irrefl buyGT_asymm buyGT_cotrans buys buy rest hp
      have hbuymem : buy ∈ buys := popMax_fst_mem buyGT buys buy rest hp
      have hidb2 : buy.id ≠ b2id := by
        intro hideq
        have h1 : buyGT b1 buy = true := hb2 buy hbuymem hideq
        rw [hmax b1 hb1] at h1
        cases h1
      by_cases hcanc : isCancelledIn map buy.id = true
      · rw [if_pos hcanc]
        have hidne : buy.id ≠ b1.id := by
          intro hideq
          unfold isCancelledIn at hcanc
          rw [hideq, hmap] at hcanc
          dsimp only at hcanc
          rw [hnc] at hcanc
          cases hcanc
        have hb1rest : b1 ∈ rest := by
          rcases popMax_mem_or buyGT buys buy rest hp b1 hb1 with h | h
          · exact absurd (congrArg Order.id h).symm hidne
          · exact h
        exact ih sell rest map ts upd hb1rest hmap hnc
          (fun o ho hid => hb2 o (popMax_rest_sub buyGT buys buy rest hp o ho) hid)
          hne hcross hts
      · rw [if_neg hcanc]
        by_cases hpr : buy.price < sell.price
        · exfalso
          have h2 : b1.price ≤ buy.price := buyGT_false_price b1 buy (hmax b1 hb1)
          omega
        · rw [if_neg hpr]
          by_cases hidb1 : buy.id = b1.id
          · have hout : ∃ d,
                (if ((sell.fill (min sell.remaining_amount buy.remaining_amount)).remaining_amount == 0) = true then
                  (sell.fill (min sell.remaining_amount buy.remaining_amount), rest,
                   alSet (buy.fill (min sell.remaining_amount buy.remaining_amount)).id
                     (buy.fill (min sell.remaining_amount buy.remaining_amount)) map,
                   ts ++ [{ buy_order := buy, sell_order := sell,
                            matched_amount := min sell.remaining_amount buy.remaining_amount }],
                   if 0 < (buy.fill (min sell.remaining_amount buy.remaining_amount)).remaining_amount then
                     upd ++ [buy.fill (min sell.remaining_amount buy.remaining_amount)] else upd)
                else
                  matchSellLoop n (sell.fill (min sell.remaining_amount buy.remaining_amount)) rest
                    (alSet (buy.fill (min sell.remaining_amount buy.remaining_amount)).id
                      (buy.fill (min sell.remaining_amount buy.remaining_amount)) map)
                    (ts ++ [{ buy_order := buy, sell_order := sell,
                              matched_amount := min sell.remaining_amount buy.remaining_amount }])
                    (if 0 < (buy.fill (min sell.remaining_amount buy.remaining_amount)).remaining_amount then
                      upd ++ [buy.fill (min sell.remaining_amount buy.remaining_amount)] else upd)).2.2.2.1 =
                (ts ++ [{ buy_order := buy, sell_order := sell,
                          matched_amount := min sell.remaining_amount buy.remaining_amount }]) ++ d := by
              by_cases hz : ((sell.fill (min sell.remaining_amount buy.remaining_amount)).remaining_amount == 0) = true
              · rw [if_pos hz]
                exact ⟨[], by simp⟩
              · rw [if_neg hz]
                exact matchSellLoop_traces_mono n _ rest _ _ _
            obtain ⟨d, hd⟩ := hout
            refine ⟨ts ++ [{ buy_order := buy, sell_order := sell,
                             matched_amount := min sell.remaining_amount buy.remaining_amount }], d,
                     by rw [hd], ?_, ?_⟩
            · intro t ht
              rcases List.mem_append.mp ht with ht1 | ht1
              · exact hts t ht1
              · rcases List.mem_singleton.mp ht1 with rfl
                exact hidb2
            · intro _
              refine ⟨{ buy_order := buy, sell_order := sell,
                        matched_amount := min sell.remaining_amount buy.remaining_amount },
                      by simp, hidb1⟩
          · have hb1rest : b1 ∈ rest := by
              rcases popMax_mem_or buyGT buys buy rest hp b1 hb1 with h | h
              · exact absurd (congrArg Order.id h).symm hidb1
              · exact h
            by_cases hz : ((sell.fill (min sell.remaining_amount buy.remaining_amount)).remaining_amount == 0) = true
            · rw [if_pos hz]
              refine ⟨ts ++ [{ buy_order := buy, sell_order := sell,
                               matched_amount := min sell.remaining_amount buy.remaining_amount }], [],
                       by simp, ?_, ?_⟩
              · intro t ht
                rcases List.mem_append.mp ht with ht1 | ht1
                · exact hts t ht1
                · rcases List.mem_singleton.mp ht1 with rfl
                  exact hidb2
              · rintro ⟨t, ht, hid⟩
                dsimp only at ht
                rcases List.mem_append.mp ht with ht1 | ht1
                · exact absurd hid (hts t ht1)
                · rcases List.mem_singleton.mp ht1 with rfl
                  exact absurd hid hidb2
            · rw [if_neg hz]
              refine ih (sell.fill (min sell.remaining_amount buy.remaining_amount)) rest
                (alSet (buy.fill (min sell.remaining_amount buy.remaining_amount)).id
                  (buy.fill (min sell.remaining_amount buy.remaining_amount)) map)
                (ts ++ [{ buy_order := buy, sell_order := sell,
                          matched_amount := min sell.remaining_amount buy.remaining_amount }])
                (if 0 < (buy.fill (min sell.remaining_amount buy.remaining_amount)).remaining_amount then
                  upd ++ [buy.fill (min sell.remaining_amount buy.remaining_amount)] else upd)
                hb1rest ?_ hnc
                (fun o ho hid => hb2 o (popMax_rest_sub buyGT buys buy rest hp o ho) hid)
                hne ?_ ?_
              · rw [Order.fill_id]
                exact (alGet_alSet_ne b1.id buy.id _ map (fun hh => hidb1 hh)).trans hmap
              · rw [Order.fill_price]
                exact hcross
              · intro t ht
                rcases List.mem_append.mp ht with ht1 | ht1
                · exact hts t ht1
                · rcases List.mem_singleton.mp ht1 with rfl
                  exact hidb2


theorem matchBuyLoop_traces_mono :
    ∀ (fuel : Nat) (buy : Order) (sells : List Order) (map : List (String × Order))
      (ts : List MatchedTrace) (upd : List Order),
      ∃ d, (matchBuyLoop fuel buy sells map ts upd).2.2.2.1 = ts ++ d := by
  intro fuel
  induction fuel with
  | zero => intro buy sells map ts upd; exact ⟨[], by simp [matchBuyLoop]⟩
  | succ n ih =>
    intro buy sells map ts upd
    rw [matchBuyLoop]
    cases hp : popMax sellGT sells with
    | none => exact ⟨[], by simp⟩
    | some p =>
      obtain ⟨sell, rest⟩ := p
      dsimp only
      by_cases hcanc : isCancelledIn map sell.id = true
      · rw [if_pos hcanc]
        exact ih buy rest map ts upd
      · rw [if_neg hcanc]
        by_cases hpr : buy.price < sell.price
        · rw [if_pos hpr]
          exact ⟨[], by simp⟩
        · rw [if_neg hpr]
          by_cases hz : ((buy.fill (min buy.remaining_amount sell.remaining_amount)).remaining_amount == 0) = true
          · rw [if_pos hz]
            exact ⟨[{ buy_order := buy, sell_order := sell,
                      matched_amount := min buy.remaining_amount sell.remaining_amount }], rfl⟩
          · rw [if_neg hz]
            obtain ⟨d, hd⟩ := ih (buy.fill (min buy.remaining_amount sell.remaining_amount)) rest
              (alSet (sell.fill (min buy.remaining_amount sell.remaining_amount)).id
                (sell.fill (min buy.remaining_amount sell.remaining_amount)) map)
              (ts ++ [{ buy_order := buy, sell_order := sell,
                        matched_amount := min buy.remaining_amount sell.remaining_amount }])
              (if 0 < (sell.fill (min buy.remaining_amount sell.remaining_amount)).remaining_amount then
                upd ++ [sell.fill (min buy.remaining_amount sell.remaining_amount)] else upd)
            exact ⟨{ buy_order := buy, sell_order := sell,
                     matched_amount := min buy.remaining_amount sell.remaining_amount } :: d,
              by rw [hd]; simp⟩

theorem matchBuyLoop_priority (s1 : Order) (s2id : String) :
    ∀ (fuel : Nat) (buy : Order) (sells : List Order) (map : List (String × Order))
      (ts : List MatchedTrace) (upd : List Order),
      s1 ∈ sells →
      alGet s1.id map = some s1 →
      (s1.status == OrderStatus.Cancelled) = false →
      (∀ o ∈ sells, o.id = s2id → sellGT s1 o = true) →
      s1.id ≠ s2id →
      s1.price ≤ buy.price →
      (∀ t ∈ ts, t.sell_order.id ≠ s2id) →
      fillsBefore (matchBuyLoop fuel buy sells map ts upd).2.2.2.1
        (fun t => t.sell_order.id) s1.id s2id := by
  intro fuel
  induction fuel with
  | zero =>
    intro buy sells map ts upd _ _ _ _ _ _ hts
    refine ⟨ts, [], by simp [matchBuyLoop], hts, ?_⟩
    rintro ⟨t, ht, hid⟩
    exact absurd hid (hts t (by simpa [matchBuyLoop] using ht))
  | succ n ih =>
    intro buy sells map ts upd hs1 hmap hnc hs2 hne hcross hts
    rw [matchBuyLoop]
    cases hp : popMax sellGT sells with
    | none =>
      have hnil : sells = [] := popMax_none_eq_nil _ sells hp
      rw [hnil] at hs1
      simp at hs1
    | some p =>
      obtain ⟨sell, rest⟩ := p
      dsimp only
      have hmax : ∀ x ∈ sells, sellGT x sell = false :=
        popMax_max sellGT sellGT_irrefl sellGT_asymm sellGT_cotrans sells sell rest hp
      have hsellmem : sell ∈ sells := popMax_fst_mem sellGT sells sell rest hp
      have hids2 : sell.id ≠ s2id := by
        intro hideq
        have h1 : sellGT s1 sell = true := hs2 sell hsellmem hideq
        rw [hmax s1 hs1] at h1
        cases h1
      by_cases hcanc : isCancelledIn map sell.id = true
      · rw [if_pos hcanc]
        have hidne : sell.id ≠ s1.id := by
          intro hideq
          unfold isCancelledIn at hcanc
          rw [hideq, hmap] at hcanc
          dsimp only at hcanc
          rw [hnc] at hcanc
          cases hcanc
        have hs1rest : s1 ∈ rest := by
          rcases popMax_mem_or sellGT sells sell rest hp s1 hs1 with h | h
          · exact absurd (congrArg Order.id h).symm hidne
          · exact h
        exact ih buy rest map ts upd hs1rest hmap hnc
          (fun o ho hid => hs2 o (popMax_rest_sub sellGT sells sell rest hp o ho) hid)
          hne hcross hts
      · rw [if_neg hcanc]
        by_cases hpr : buy.price < sell.price
        · exfalso
          have h2 : sell.price ≤ s1.price := sellGT_false_price s1 sell (hmax s1 hs1)
          omega
        · rw [if_neg hpr]
          by_cases hids1 : sell.id = s1.id
          · have hout : ∃ d,
                (if ((buy.fill (min buy.remaining_amount sell.remaining_amount)).remaining_amount == 0) = true then
                  (buy.fill (min buy.remaining_amount sell.remaining_amount), rest,
                   alSet (sell.fill (min buy.remaining_amount sell.remaining_amount)).id
                     (sell.fill (min buy.remaining_amount sell.remaining_amount)) map,
                   ts ++ [{ buy_order := buy, sell_order := sell,
                            matched_amount := min buy.remaining_amount sell.remaining_amount }],
                   if 0 < (sell.fill (min buy.remaining_amount sell.remaining_amount)).remaining_amount then
                     upd ++ [sell.fill (min buy.remaining_amount sell.remaining_amount)] else upd)
                else
                  matchBuyLoop n (buy.fill (min buy.remaining_amount sell.remaining_amount)) rest
                    (alSet (sell.fill (min buy.remaining_amount sell.remaining_amount)).id
                      (sell.fill (min buy.remaining_amount sell.remaining_amount)) map)
                    (ts ++ [{ buy_order := buy, sell_order := sell,
                              matched_amount := min buy.remaining_amount sell.remaining_amount }])
                    (if 0 < (sell.fill (min buy.remaining_amount sell.remaining_amount)).remaining_amount then
                      upd ++ [sell.fill (min buy.remaining_amount sell.remaining_amount)] else upd)).2.2.2.1 =
                (ts ++ [{ buy_order := buy, sell_order := sell,
                          matched_amount := min buy.remaining_amount sell.remaining_amount }]) ++ d := by
              by_cases hz : ((buy.fill (min buy.remaining_amount sell.remaining_amount)).remaining_amount == 0) = true
              · rw [if_pos hz]
                exact ⟨[], by simp⟩
              · rw [if_neg hz]
                exact matchBuyLoop_traces_mono n _ rest _ _ _
            obtain ⟨d, hd⟩ := hout
            refine ⟨ts ++ [{ buy_order := buy, sell_order := sell,
                             matched_amount := min buy.remaining_amount sell.remaining_amount }], d,
                     by rw [hd], ?_, ?_⟩
            · intro t ht
              rcases List.mem_append.mp ht with ht1 | ht1
              · exact hts t ht1
              · rcases List.mem_singleton.mp ht1 with rfl
                exact hids2
            · intro _
              refine ⟨{ buy_order := buy, sell_order := sell,
                        matched_amount := min buy.remaining_amount sell.remaining_amount },
                      by simp, hids1⟩
          · have hs1rest : s1 ∈ rest := by
              rcases popMax_mem_or sellGT sells sell rest hp s1 hs1 with h | h
              · exact absurd (congrArg Order.id h).symm hids1
              · exact h
            by_cases hz : ((buy.fill (min buy.remaining_amount sell.remaining_amount)).remaining_amount == 0) = true
            · rw [if_pos hz]
              refine ⟨ts ++ [{ buy_order := buy, sell_order := sell,
                               matched_amount := min buy.remaining_amount sell.remaining_amount }], [],
                       by simp, ?_, ?_⟩
              · intro t ht
                rcases List.mem_append.mp ht with ht1 | ht1
                · exact hts t ht1
                · rcases List.mem_singleton.mp ht1 with rfl
                  exact hids2
              · rintro ⟨t, ht, hid⟩
                dsimp only at ht
                rcases List.mem_append.mp ht with ht1 | ht1
                · exact absurd hid (hts t ht1)
                · rcases List.mem_singleton.mp ht1 with rfl
                  exact absurd hid hids2
            · rw [if_neg hz]
              refine ih (buy.fill (min buy.remaining_amount sell.remaining_amount)) rest
                (alSet (sell.fill (min buy.remaining_amount sell.remaining_amount)).id
                  (sell.fill (min buy.remaining_amount sell.remaining_amount)) map)
                (ts ++ [{ buy_order := buy, sell_order := sell,
                          matched_amount := min buy.remaining_amount sell.remaining_amount }])
                (if 0 < (sell.fill (min buy.remaining_amount sell.remaining_amount)).remaining_amount then
                  upd ++ [sell.fill (min buy.remaining_amount sell.remaining_amount)] else upd)
                hs1rest ?_ hnc
                (fun o ho hid => hs2 o (popMax_rest_sub sellGT sells sell rest hp o ho) hid)
                hne ?_ ?_
              · rw [Order.fill_id]
                exact (alGet_alSet_ne s1.id sell.id _ map (fun hh => hids1 hh)).trans hmap
              · rw [Order.fill_price]
                exact hcross
              · intro t ht
                rcases List.mem_append.mp ht with ht1 | ht1
                · exact hts t ht1
                · rcases List.mem_singleton.mp ht1 with rfl
                  exact hids2


/-- C6.  Price-time priority of matching, both directions.  Buy side: if a
non-cancelled buy `b1` rests in the book, every resting entry carrying the
id `b2id` compares strictly below `b1` in the `BuyOrder` order (higher
price first, earlier `created_at` on ties), and an arriving sell crosses
`b1`, then in the traces the match loop emits, no fill for `b2id` precedes
a fill for `b1` — `b1` fills first.  Sell side symmetrically with the
`SellOrder` order (lower price first, earlier `created_at` on ties). -/
theorem matching_price_time_priority :
    (∀ (sell b1 : Order) (b2id : String) (ob : OrderBook),
      b1 ∈ ob.buy_orders →
      alGet b1.id ob.order_map = some b1 →
      (b1.status == OrderStatus.Cancelled) = false →
      (∀ o ∈ ob.buy_orders, o.id = b2id → buyGT b1 o = true) →
      b1.id ≠ b2id →
      sell.price ≤ b1.price →
      fillsBefore (match_sell_order sell ob).2.2 (fun t => t.buy_order.id) b1.id b2id) ∧
    (∀ (buy s1 : Order) (s2id : String) (ob : OrderBook),
      s1 ∈ ob.sell_orders →
      alGet s1.id ob.order_map = some s1 →
      (s1.status == OrderStatus.Cancelled) = false →
      (∀ o ∈ ob.sell_orders, o.id = s2id → sellGT s1 o = true) →
      s1.id ≠ s2id →
      s1.price ≤ buy.price →
      fillsBefore (match_buy_order buy ob).2.2 (fun t => t.sell_order.id) s1.id s2id) := by
  constructor
  · intro sell b1 b2id ob hb1 hmap hnc hb2 hne hcross
    exact matchSellLoop_priority b1 b2id ob.buy_orders.length sell ob.buy_orders
      ob.order_map [] [] hb1 hmap hnc hb2 hne hcross (by intro t ht; simp at ht)
  · intro buy s1 s2id ob hs1 hmap hnc hs2 hne hcross
    exact matchBuyLoop_priority s1 s2id ob.sell_orders.length buy ob.sell_orders
      ob.order_map [] [] hs1 hmap hnc hs2 hne hcross (by intro t ht; simp at ht)

/-- C6 witness: the concrete books `wBookBuys` and `wBookSells` with a
crossing sell and a crossing buy. -/
theorem matching_price_time_priority_witness :
    fillsBefore (match_sell_order wSell wBookBuys).2.2 (fun t => t.buy_order.id) "b1" "b2" ∧
    fillsBefore (match_buy_order wBuy wBookSells).2.2 (fun t => t.sell_order.id) "s1" "s2" :=
  ⟨matching_price_time_priority.1 wSell wB1 "b2" wBookBuys (by decide) (by decide)
     (by decide) (by decide) (by decide) (by decide),
   matching_price_time_priority.2 wBuy wS1 "s2" wBookSells (by decide) (by decide)
     (by decide) (by decide) (by decide) (by decide)⟩


end Clob
